import Mathlib

/-!
Verification of the resume-to-job-search pipeline (src/main.py).

The file embeds, as Lean functions, the pure computational content of:
  - `analyze_resume_with_gemini` (brace-span extraction from the model reply,
    JSON parse, verbatim return of the parsed value);
  - `search_jobs` (query construction from the filter dict, HTTP-status check,
    JSON parse of the body, `hits`-key check);
  - the default-filter computation inside `main` (default skills, default
    experience level, the selectbox index lookup);
  - the result rendering inside `main` (`job.get('websiteName', 'N/A')` etc.);
  - `extract_text_from_pdf`'s temp-file discipline, with the file system as an
    explicit list of existing paths.

External services (the PDF library, the completion call, the HTTP transport,
Python's `json.loads`) are not repository code; they enter either as explicit
inputs (the completion reply text, the HTTP status and body, the outcome of the
PDF read) or as a faithful model of their documented semantics (`jsonLoads`
below models `json.loads` on the JSON fragment this program exchanges:
objects, arrays and escape-free strings).
-/

set_option autoImplicit false

/-- The opening curly brace character (code point 123). -/
def openBrace : Char := Char.ofNat 123

/-- The closing curly brace character (code point 125). -/
def closeBrace : Char := Char.ofNat 125

/-- The double-quote character (code point 34). -/
def quoteChar : Char := Char.ofNat 34

/-- Index of the first occurrence of `c` in a character list. -/
def firstIdx (c : Char) : List Char → Option Nat
  | [] => none
  | a :: rest => if a = c then some 0 else (firstIdx c rest).map (· + 1)

/-- Index of the last occurrence of `c` in a character list. -/
def lastIdx (c : Char) : List Char → Option Nat
  | [] => none
  | a :: rest =>
    match lastIdx c rest with
    | some k => some (k + 1)
    | none => if a = c then some 0 else none

/-- Embedding of `re.search(r"\x7b.*\x7d", text, re.DOTALL)` from
`analyze_resume_with_gemini` (src/main.py line 68): the regex engine scans for
the leftmost start position holding an opening brace with a closing brace
strictly later, and the greedy `.*` makes the match run to the last closing
brace of the whole remaining text. Returns the matched character span. -/
def braceSearchAux : List Char → Option (List Char)
  | [] => none
  | a :: rest =>
    match lastIdx closeBrace rest with
    | some k =>
      if a = openBrace then some (a :: rest.take (k + 1)) else braceSearchAux rest
    | none => braceSearchAux rest

/-- Modelled from the spec: "locate the first `\x7b` and the last `\x7d` in the
reply … and attempt to parse that substring". The substring from the first
opening brace to the last closing brace, when the former precedes the latter.
This is the spec-side companion of `braceSearchAux`, kept separate so the two
can be compared. -/
def specBraceSpan (cs : List Char) : Option (List Char) :=
  match firstIdx openBrace cs, lastIdx closeBrace cs with
  | some i, some j => if i < j then some ((cs.drop i).take (j - i + 1)) else none
  | _, _ => none

/-- JSON values of the fragment this program exchanges: strings, arrays,
objects. -/
inductive JVal where
  | jstr : String → JVal
  | jarr : List JVal → JVal
  | jobj : List (String × JVal) → JVal

/-- Whether a parsed JSON value is an object carrying the key `k`
(Python's `k in dict`). -/
def JVal.hasKey (v : JVal) (k : String) : Bool :=
  match v with
  | .jobj fields => fields.any fun p => p.1 == k
  | _ => false

/-- Whether the character list `needle` matches at the head of the second
list. -/
def leadMatch : List Char → List Char → Bool
  | [], _ => true
  | _ :: _, [] => false
  | a :: ra, b :: rb => a == b && leadMatch ra rb

/-- Whether the character list `needle` occurs contiguously anywhere in the
second list (Python's substring test). -/
def subMatch (needle : List Char) : List Char → Bool
  | [] => leadMatch needle []
  | b :: rest => leadMatch needle (b :: rest) || subMatch needle rest

/-- Python equality between the string `k` and a parsed JSON value: true
exactly when the value is the string `k` (a number, list or dict never equals
a string). -/
def jvalEqStr (k : String) (v : JVal) : Bool :=
  match v with
  | .jstr s => s == k
  | _ => false

/-- Python's `k in v` for a string `k` and a parsed JSON value `v`: key
membership when `v` is a dict, element membership when `v` is a list (an
element equals `k` only when it is that very string), substring containment
when `v` is a string. -/
def pyIn (k : String) (v : JVal) : Bool :=
  match v with
  | .jobj fields => fields.any fun p => p.1 == k
  | .jarr xs => xs.any (jvalEqStr k)
  | .jstr s => subMatch k.toList s.toList

/-- Whitespace recognised by the JSON grammar. -/
def isJsonWs (c : Char) : Bool :=
  c = ' ' || c = '\n' || c = '\t' || c = '\r'

/-- Drop leading JSON whitespace. -/
def skipWs : List Char → List Char
  | [] => []
  | c :: rest => if isJsonWs c then skipWs rest else c :: rest

/-- Read the body of a JSON string literal (no escape sequences) up to the
closing quote; returns the content and the remaining characters. -/
def takeStr : List Char → Option (List Char × List Char)
  | [] => none
  | c :: rest =>
    if c = quoteChar then some ([], rest)
    else (takeStr rest).map fun p => (c :: p.1, p.2)

mutual

/-- Fueled recursive-descent parser for one JSON value (strings, arrays,
objects); part of the model of Python's `json.loads`. -/
def parseVal : Nat → List Char → Option (JVal × List Char)
  | 0, _ => none
  | n + 1, cs =>
    match skipWs cs with
    | [] => none
    | c :: rest =>
      if c = quoteChar then
        (takeStr rest).map fun p => (.jstr (String.mk p.1), p.2)
      else if c = '[' then
        match skipWs rest with
        | [] => none
        | c1 :: r1 =>
          if c1 = ']' then some (.jarr [], r1)
          else (parseArrItems n (c1 :: r1)).map fun p => (.jarr p.1, p.2)
      else if c = openBrace then
        match skipWs rest with
        | [] => none
        | c1 :: r1 =>
          if c1 = closeBrace then some (.jobj [], r1)
          else (parseObjItems n (c1 :: r1)).map fun p => (.jobj p.1, p.2)
      else none

/-- Fueled parser for the comma-separated items of a JSON array, up to and
including the closing bracket. -/
def parseArrItems : Nat → List Char → Option (List JVal × List Char)
  | 0, _ => none
  | n + 1, cs =>
    match parseVal n cs with
    | none => none
    | some (v, r) =>
      match skipWs r with
      | [] => none
      | c :: rest =>
        if c = ',' then (parseArrItems n rest).map fun p => (v :: p.1, p.2)
        else if c = ']' then some ([v], rest)
        else none

/-- Fueled parser for the comma-separated members of a JSON object, up to and
including the closing brace. -/
def parseObjItems : Nat → List Char → Option (List (String × JVal) × List Char)
  | 0, _ => none
  | n + 1, cs =>
    match skipWs cs with
    | [] => none
    | c :: rest =>
      if c = quoteChar then
        match takeStr rest with
        | none => none
        | some (key, r1) =>
          match skipWs r1 with
          | [] => none
          | c2 :: r2 =>
            if c2 = ':' then
              match parseVal n r2 with
              | none => none
              | some (v, r3) =>
                match skipWs r3 with
                | [] => none
                | c3 :: r4 =>
                  if c3 = ',' then
                    (parseObjItems n r4).map fun p =>
                      ((String.mk key, v) :: p.1, p.2)
                  else if c3 = closeBrace then
                    some ([(String.mk key, v)], r4)
                  else none
            else none
      else none

end

/-- Model of Python's `json.loads` on the JSON fragment this program exchanges
(objects, arrays, escape-free strings): parse one value and require that only
whitespace remains; `none` models a raised `json.JSONDecodeError`. -/
def jsonLoads (s : String) : Option JVal :=
  match parseVal (2 * s.length + 2) s.toList with
  | some (v, r) => if skipWs r = [] then some v else none
  | none => none

/-- Outcome of `analyze_resume_with_gemini` (src/main.py lines 67-80) given the
completion reply text: the parsed JSON value returned verbatim, or one of the
two parse-failure paths, each carrying the raw reply it reports. -/
inductive AnalysisResult where
  | ok : JVal → AnalysisResult
  | invalidJson : String → AnalysisResult
  | noJsonFound : String → AnalysisResult

/-- Stage of `analyze_resume_with_gemini` after a brace span was found
(src/main.py lines 70-76): `json.loads` on the span, returning its value
verbatim on success and the `InvalidJson` failure (with the raw reply) on a
decode error. -/
def parseSpan (raw : String) (span : String) : AnalysisResult :=
  match jsonLoads span with
  | some v => .ok v
  | none => .invalidJson raw

/-- Embedding of `analyze_resume_with_gemini` (src/main.py lines 67-80) as a
function of the completion reply text: brace-span search, then JSON parse of
the span; no span at all is the `NoJsonFound` failure carrying the raw
reply. -/
def analyze_resume_with_gemini (responseText : String) : AnalysisResult :=
  match braceSearchAux responseText.toList with
  | some span => parseSpan responseText (String.mk span)
  | none => .noJsonFound responseText

/-- Python's `','.join` on a list of strings. -/
def commaJoin : List String → String
  | [] => ""
  | [s] => s
  | s :: rest => s ++ "," ++ commaJoin rest

/-- Query construction in `search_jobs` (src/main.py lines 95-97): join the
skills with commas, then, when the `job_titles` key is present and its list is
non-empty, append a comma and the comma-join of the titles. `none` models an
absent dict key. -/
def build_search_query (skills : Option (List String))
    (job_titles : Option (List String)) : String :=
  let q := commaJoin (skills.getD [])
  match job_titles with
  | some ts => if ts.isEmpty then q else q ++ ("," ++ commaJoin ts)
  | none => q

/-- The POST body built in `search_jobs` (src/main.py lines 99-102): a
single-key object `\x7b"q": <query>\x7d`. -/
def requestPayload (skills : Option (List String))
    (job_titles : Option (List String)) : List (String × JVal) :=
  [("q", JVal.jstr (build_search_query skills job_titles))]

/-- Outcome of `search_jobs` (src/main.py lines 104-130) for a completed HTTP
exchange: the parsed body returned whole when it carries `hits`, or one of the
failure paths, each carrying what the code reports. -/
inductive SearchOutcome where
  | ok : JVal → SearchOutcome
  | httpError : Nat → String → SearchOutcome
  | malformedJson : String → SearchOutcome
  | unexpectedFormat : String → SearchOutcome

/-- Embedding of the response handling of `search_jobs` (src/main.py lines
104-130) as a function of the HTTP status and body: `raise_for_status` fails on
4xx/5xx, a JSON decode error is caught and reported with the body, and the
guard `if 'hits' in jobs_data:` — Python's `in` on whatever value the body
parsed to, embedded as `pyIn` — returns the parsed data whole when it holds
and the unexpected-format failure carrying the raw body when it does not. -/
def search_jobs (status : Nat) (body : String) : SearchOutcome :=
  if 400 ≤ status then .httpError status body
  else
    match jsonLoads body with
    | none => .malformedJson body
    | some v => if pyIn "hits" v then .ok v else .unexpectedFormat body

/-- Default skills computed in `main` (src/main.py line 182):
`search_params.get('skills', [])[:3] if 'skills' in search_params else []`.
`none` models an absent key. -/
def default_skills (skills : Option (List String)) : List String :=
  match skills with
  | some l => l.take 3
  | none => []

/-- Python's `str.lower()` on the ASCII strings this program handles:
per-character lowercase. -/
def pyLower (s : String) : String := String.mk (s.toList.map Char.toLower)

/-- Default experience computed in `main` (src/main.py line 183):
`search_params.get('experience_level', '').lower() if 'experience_level' in
search_params else 'junior'`. -/
def default_experience (exp : Option String) : String :=
  match exp with
  | some e => pyLower e
  | none => "junior"

/-- Default job titles computed in `main` (src/main.py line 184). -/
def default_job_titles (titles : Option (List String)) : List String :=
  match titles with
  | some l => l
  | none => []

/-- The fixed option list of the experience selectbox (src/main.py line 195). -/
def experienceOptions : List String := ["junior", "mid-level", "senior"]

/-- Python's `list.index`: position of the first occurrence, `none` modelling
the raised `ValueError` when the element is absent. -/
def listIndex : List String → String → Option Nat
  | [], _ => none
  | x :: rest, y => if x = y then some 0 else (listIndex rest y).map (· + 1)

/-- The experience value the selectbox starts from in `main` (src/main.py lines
193-197): the option at `experienceOptions.index(default_experience)`; `none`
models the `ValueError` crash when the default is not among the options. -/
def experience_level_select (exp : Option String) : Option String :=
  match listIndex experienceOptions (default_experience exp) with
  | some i => experienceOptions[i]?
  | none => none

/-- One entry of the `hits` array as the rendering code reads it (src/main.py
lines 217-225): `title` and `description` accessed unconditionally, the other
fields optional. -/
structure JobHit where
  title : String
  description : String
  websiteName : Option String
  locationName : Option String
  created_at : Option String
  url : Option String

/-- Company string rendered for a hit (src/main.py line 219):
`job.get('websiteName', 'N/A')`. -/
def job_company (j : JobHit) : String := j.websiteName.getD "N/A"

/-- Location string rendered for a hit (src/main.py line 220):
`job.get('locationName', 'N/A')`. -/
def job_location (j : JobHit) : String := j.locationName.getD "N/A"

/-- Embedding of `extract_text_from_pdf` (src/main.py lines 18-38) with the
file system as an explicit list of existing paths. The function writes the
upload to a fresh temp file (`delete=False`), then reads it with the PDF
library — whose outcome, success text or raised error, is the `pdfRead`
input — and calls `os.unlink` only after a successful read; the `except`
handler returns `None` without unlinking. Returns the result and the final
file-system state. -/
def extract_text_from_pdf (pdfRead : Except String String) (tmpPath : String)
    (fs : List String) : Option String × List String :=
  let fs1 := tmpPath :: fs
  match pdfRead with
  | .ok text => (some text, fs1.erase tmpPath)
  | .error _ => (none, fs1)

/-! ### Helper lemmas -/

theorem openBrace_ne_closeBrace : openBrace ≠ closeBrace := by decide

theorem firstIdx_le_of_getElem (c : Char) :
    ∀ (cs : List Char) (i : Nat), cs[i]? = some c →
      ∃ k, firstIdx c cs = some k ∧ k ≤ i := by
  intro cs
  induction cs with
  | nil => intro i h; simp at h
  | cons a rest ih =>
    intro i h
    by_cases hac : a = c
    · exact ⟨0, by simp [firstIdx, hac], Nat.zero_le i⟩
    · cases i with
      | zero =>
        rw [List.getElem?_cons_zero] at h
        exact absurd (Option.some.inj h) hac
      | succ m =>
        rw [List.getElem?_cons_succ] at h
        obtain ⟨k, hk, hle⟩ := ih m h
        exact ⟨k + 1, by simp [firstIdx, hac, hk], Nat.succ_le_succ hle⟩

theorem lastIdx_ge_of_getElem (c : Char) :
    ∀ (cs : List Char) (j : Nat), cs[j]? = some c →
      ∃ k, lastIdx c cs = some k ∧ j ≤ k := by
  intro cs
  induction cs with
  | nil => intro j h; simp at h
  | cons a rest ih =>
    intro j h
    cases j with
    | zero =>
      rw [List.getElem?_cons_zero] at h
      have hac : a = c := Option.some.inj h
      cases hrest : lastIdx c rest with
      | some k => exact ⟨k + 1, by simp [lastIdx, hrest], Nat.zero_le _⟩
      | none => exact ⟨0, by simp [lastIdx, hrest, hac], Nat.le_refl 0⟩
    | succ m =>
      rw [List.getElem?_cons_succ] at h
      obtain ⟨k, hk, hle⟩ := ih m h
      exact ⟨k + 1, by simp [lastIdx, hk], Nat.succ_le_succ hle⟩

theorem braceSearchAux_eq_specBraceSpan :
    ∀ cs : List Char, braceSearchAux cs = specBraceSpan cs := by
  intro cs
  induction cs with
  | nil => rfl
  | cons a rest ih =>
    cases hlast : lastIdx closeBrace rest with
    | none =>
      have hb : braceSearchAux (a :: rest) = braceSearchAux rest := by
        simp only [braceSearchAux, hlast]
      have hlc : lastIdx closeBrace (a :: rest) =
          if a = closeBrace then some 0 else none := by
        simp only [lastIdx, hlast]
      have hrest_none : specBraceSpan rest = none := by
        unfold specBraceSpan
        rw [hlast]
        cases firstIdx openBrace rest <;> rfl
      rw [hb, ih, hrest_none]
      unfold specBraceSpan
      rw [hlc]
      by_cases hac : a = closeBrace
      · have hao : a ≠ openBrace := by rw [hac]; exact (Ne.symm openBrace_ne_closeBrace)
        rw [if_pos hac]
        show none = match (firstIdx openBrace (a :: rest)), (some 0 : Option Nat) with
          | some i, some j => if i < j then some (((a :: rest).drop i).take (j - i + 1)) else none
          | _, _ => none
        simp only [firstIdx, if_neg hao]
        cases firstIdx openBrace rest with
        | none => rfl
        | some i => simp
      · rw [if_neg hac]
        cases firstIdx openBrace (a :: rest) <;> rfl
    | some k =>
      have hlc : lastIdx closeBrace (a :: rest) = some (k + 1) := by
        simp only [lastIdx, hlast]
      by_cases hao : a = openBrace
      · have hb : braceSearchAux (a :: rest) = some (a :: rest.take (k + 1)) := by
          simp only [braceSearchAux, hlast, if_pos hao]
        have hfi : firstIdx openBrace (a :: rest) = some 0 := by
          simp only [firstIdx, if_pos hao]
        rw [hb]
        simp only [specBraceSpan, hfi, hlc]
        rw [if_pos (Nat.succ_pos k), List.drop_zero]
        have harith : k + 1 - 0 + 1 = k + 2 := by omega
        rw [harith]
        rfl
      · have hb : braceSearchAux (a :: rest) = braceSearchAux rest := by
          simp only [braceSearchAux, hlast, if_neg hao]
        have hfi : firstIdx openBrace (a :: rest) =
            (firstIdx openBrace rest).map (· + 1) := by
          simp only [firstIdx, if_neg hao]
        rw [hb, ih]
        unfold specBraceSpan
        rw [hlc, hlast, hfi]
        cases firstIdx openBrace rest with
        | none => rfl
        | some i =>
          simp only [Option.map_some']
          by_cases hik : i < k
          · rw [if_pos hik, if_pos (Nat.succ_lt_succ hik)]
            have hdrop : (a :: rest).drop (i + 1) = rest.drop i := rfl
            rw [hdrop]
            have harith : k + 1 - (i + 1) + 1 = k - i + 1 := by omega
            rw [harith]
          · rw [if_neg hik, if_neg (fun h => hik (Nat.lt_of_succ_lt_succ h))]

theorem firstIdx_eq_none_of_not_mem (c : Char) :
    ∀ cs : List Char, c ∉ cs → firstIdx c cs = none := by
  intro cs
  induction cs with
  | nil => intro _; rfl
  | cons a rest ih =>
    intro h
    have hac : a ≠ c := fun hc => h (hc ▸ List.mem_cons_self a rest)
    have hrest : c ∉ rest := fun hc => h (List.mem_cons_of_mem a hc)
    simp [firstIdx, hac, ih hrest]

theorem commaJoin_cons_of_ne_nil (s : String) (a : List String) (h : a ≠ []) :
    commaJoin (s :: a) = s ++ "," ++ commaJoin a := by
  cases a with
  | nil => exact absurd rfl h
  | cons b bs => rfl

theorem commaJoin_append (a b : List String) (hb : b ≠ []) :
    a ≠ [] → commaJoin (a ++ b) = commaJoin a ++ "," ++ commaJoin b := by
  induction a with
  | nil => intro h; exact absurd rfl h
  | cons x xs ih =>
    intro _
    by_cases hxs : xs = []
    · subst hxs
      rw [List.singleton_append, commaJoin_cons_of_ne_nil x b hb]
      rfl
    · have hab : xs ++ b ≠ [] := fun h => hxs (List.append_eq_nil.mp h).1
      rw [List.cons_append, commaJoin_cons_of_ne_nil x (xs ++ b) hab, ih hxs,
        commaJoin_cons_of_ne_nil x xs hxs]
      simp only [String.append_assoc]

theorem listIndex_getElem :
    ∀ (xs : List String) (y : String) (i : Nat),
      listIndex xs y = some i → xs[i]? = some y := by
  intro xs
  induction xs with
  | nil => intro y i h; simp [listIndex] at h
  | cons x rest ih =>
    intro y i h
    by_cases hxy : x = y
    · simp only [listIndex, if_pos hxy] at h
      rw [← Option.some.inj h, List.getElem?_cons_zero, hxy]
    · simp only [listIndex, if_neg hxy] at h
      cases hrest : listIndex rest y with
      | none => rw [hrest] at h; simp at h
      | some k =>
        rw [hrest] at h
        simp only [Option.map_some'] at h
        rw [← Option.some.inj h, List.getElem?_cons_succ]
        exact ih y k hrest

/-! ### Claim C1 -/

/-- C1 counterexample: the reply consisting of the well-formed empty JSON
object parses successfully, yet `analyze_resume_with_gemini` returns it with
the `skills` key (and every other key) missing — no empty default is filled
in, refuting the claim that the result never has missing keys. -/
theorem analyze_empty_object_has_missing_keys :
    analyze_resume_with_gemini "\x7b\x7d" = AnalysisResult.ok (JVal.jobj []) ∧
      JVal.hasKey (JVal.jobj []) "skills" = false := ⟨rfl, rfl⟩

/-- C1 amended: whenever a brace span is found in the reply and the span
parses as JSON, `analyze_resume_with_gemini` returns the parsed value
verbatim — fields absent from the parsed JSON remain absent; no defaulting
is performed. -/
theorem analyze_returns_parsed_json_verbatim (raw : String) (span : List Char)
    (v : JVal) (hspan : braceSearchAux raw.toList = some span)
    (hparse : jsonLoads (String.mk span) = some v) :
    analyze_resume_with_gemini raw = AnalysisResult.ok v := by
  have h1 : analyze_resume_with_gemini raw = parseSpan raw (String.mk span) := by
    unfold analyze_resume_with_gemini
    rw [hspan]
  rw [h1]
  unfold parseSpan
  rw [hparse]

/-- C1 witness: the amended theorem applied to the reply `"\x7b\x7d"`. -/
theorem analyze_returns_parsed_json_verbatim_witness :
    analyze_resume_with_gemini "\x7b\x7d" = AnalysisResult.ok (JVal.jobj []) :=
  analyze_returns_parsed_json_verbatim "\x7b\x7d" ("\x7b\x7d".toList)
    (JVal.jobj []) rfl rfl

/-! ### Claim C2 -/

/-- C2 counterexample: an `experience_level` key present with the empty string
is lower-cased to the empty string, which is not `"junior"`, and the selectbox
index lookup on the three-option list then fails (Python raises `ValueError`)
instead of defaulting to `"junior"`. -/
theorem empty_experience_crashes_instead_of_junior :
    default_experience (some "") ≠ "junior" ∧
      experience_level_select (some "") = none := by
  constructor
  · decide
  · decide

/-- C2 amended: the default experience is the lower-cased
`profile.experience_level` when that key is present (so `"Senior"` yields
`"senior"`) and `"junior"` only when the key is absent; a present value
outside the three enumerated options (including the empty string) makes the
selectbox index lookup fail rather than defaulting, and whenever the lookup
succeeds the selected experience level is one of the three enumerated
values. -/
theorem default_experience_lowercases_and_select_stays_in_enum :
    default_experience (some "Senior") = "senior" ∧
      default_experience none = "junior" ∧
      ∀ (exp : Option String) (r : String),
        experience_level_select exp = some r → r ∈ experienceOptions := by
  refine ⟨by decide, rfl, ?_⟩
  intro exp r h
  unfold experience_level_select at h
  cases hli : listIndex experienceOptions (default_experience exp) with
  | none => rw [hli] at h; cases h
  | some i =>
    rw [hli] at h
    exact List.getElem?_mem h

/-- C2 witness: the amended theorem's enumeration invariant applied to the
concrete profile value `some "Senior"`. -/
theorem default_experience_select_enum_witness :
    "senior" ∈ experienceOptions :=
  default_experience_lowercases_and_select_stays_in_enum.2.2 (some "Senior")
    "senior" (by decide)

/-! ### Claim C3 -/

/-- C3 counterexample: with an empty skills list and job titles
`["engineer"]`, the constructed query is `",engineer"`, while the
comma-separated join of `skills ++ job_titles` is `"engineer"` — the query is
not the plain comma-join of the concatenated lists. -/
theorem query_with_empty_skills_differs_from_join :
    build_search_query (some []) (some ["engineer"]) = ",engineer" ∧
      commaJoin ([] ++ ["engineer"]) = "engineer" ∧
      build_search_query (some []) (some ["engineer"]) ≠
        commaJoin ([] ++ ["engineer"]) := by
  refine ⟨by decide, rfl, by decide⟩

/-- C3 amended: whenever the skills list is non-empty or the job-titles list
is empty, the query string is exactly the comma-separated join of
`skills ++ job_titles` (skills first), and that string is the entire `q`
payload of the request; in particular `skills=["python","sql"]`,
`job_titles=["engineer"]` produces `"python,sql,engineer"`. (Only the
empty-skills/non-empty-titles corner deviates; see claim C10.) -/
theorem query_is_comma_join_of_skills_then_titles (sk ts : List String)
    (h : sk ≠ [] ∨ ts = []) :
    build_search_query (some sk) (some ts) = commaJoin (sk ++ ts) ∧
      requestPayload (some sk) (some ts) =
        [("q", JVal.jstr (commaJoin (sk ++ ts)))] := by
  have hq : build_search_query (some sk) (some ts) = commaJoin (sk ++ ts) := by
    by_cases hts : ts = []
    · subst hts
      simp [build_search_query]
    · have hsk : sk ≠ [] := h.resolve_right hts
      unfold build_search_query
      have hempty : ts.isEmpty = false := by
        cases ts with
        | nil => exact absurd rfl hts
        | cons a l => rfl
      simp only [Option.getD_some, hempty, Bool.false_eq_true, if_false]
      rw [commaJoin_append sk ts hts hsk]
      simp only [String.append_assoc]
  exact ⟨hq, by unfold requestPayload; rw [hq]⟩

/-- C3 witness: the amended theorem applied to `skills=["python","sql"]`,
`job_titles=["engineer"]`, evaluating to `"python,sql,engineer"`. -/
theorem query_comma_join_witness :
    build_search_query (some ["python", "sql"]) (some ["engineer"]) =
      "python,sql,engineer" :=
  ((query_is_comma_join_of_skills_then_titles ["python", "sql"] ["engineer"]
    (Or.inl (by decide))).1).trans (by decide)

/-! ### Claim C4 -/

/-- C4: the default skills are exactly the first three entries of
`profile.skills` in their original order (all of them when there are fewer
than three), and the default list never holds more than three entries,
whatever the input. -/
theorem default_skills_first_three :
    (∀ l : List String, default_skills (some l) = l.take 3) ∧
      ∀ o : Option (List String), (default_skills o).length ≤ 3 := by
  refine ⟨fun l => rfl, ?_⟩
  intro o
  cases o with
  | none => decide
  | some l => exact List.length_take_le 3 l

/-! ### Claim C5 -/

/-- C5: for every reply holding an opening brace with a closing brace strictly
later, the regex search selects exactly the substring running from the first
opening brace to the last closing brace of the reply, and the analyzer hands
exactly that substring to the JSON-parsing stage. -/
theorem brace_span_runs_first_open_to_last_close (raw : String) (i j : Nat)
    (hij : i < j) (hi : raw.toList[i]? = some openBrace)
    (hj : raw.toList[j]? = some closeBrace) :
    ∃ fi lj, firstIdx openBrace raw.toList = some fi ∧
      lastIdx closeBrace raw.toList = some lj ∧ fi ≤ i ∧ j ≤ lj ∧
      braceSearchAux raw.toList =
        some ((raw.toList.drop fi).take (lj - fi + 1)) ∧
      analyze_resume_with_gemini raw =
        parseSpan raw (String.mk ((raw.toList.drop fi).take (lj - fi + 1))) := by
  obtain ⟨fi, hfi, hfile⟩ := firstIdx_le_of_getElem openBrace raw.toList i hi
  obtain ⟨lj, hlj, hjle⟩ := lastIdx_ge_of_getElem closeBrace raw.toList j hj
  have hlt : fi < lj := Nat.lt_of_le_of_lt hfile (Nat.lt_of_lt_of_le hij hjle)
  have hsearch : braceSearchAux raw.toList =
      some ((raw.toList.drop fi).take (lj - fi + 1)) := by
    rw [braceSearchAux_eq_specBraceSpan]
    simp only [specBraceSpan, hfi, hlj]
    rw [if_pos hlt]
  refine ⟨fi, lj, hfi, hlj, hfile, hjle, hsearch, ?_⟩
  unfold analyze_resume_with_gemini
  rw [hsearch]

/-- C5 witness: the theorem applied to the reply `"a\x7bx\x7db"`, whose first
opening brace is at index 1 and last closing brace at index 3, so the span
handed to the parsing stage is `"\x7bx\x7d"`. -/
theorem brace_span_witness :
    analyze_resume_with_gemini "a\x7bx\x7db" =
      parseSpan "a\x7bx\x7db" "\x7bx\x7d" := by
  obtain ⟨fi, lj, hfi, hlj, _, _, _, hana⟩ :=
    brace_span_runs_first_open_to_last_close "a\x7bx\x7db" 1 3 (by decide)
      (by decide) (by decide)
  have hfi1 : firstIdx openBrace "a\x7bx\x7db".toList = some 1 := by decide
  have hlj3 : lastIdx closeBrace "a\x7bx\x7db".toList = some 3 := by decide
  have efi : fi = 1 := Option.some.inj (hfi.symm.trans hfi1)
  have elj : lj = 3 := Option.some.inj (hlj.symm.trans hlj3)
  subst efi
  subst elj
  rw [hana]
  have hspan : String.mk (("a\x7bx\x7db".toList.drop 1).take (3 - 1 + 1)) =
      "\x7bx\x7d" := by decide
  rw [hspan]

/-! ### Claim C6 -/

/-- C6: a completion reply without any opening brace makes
`analyze_resume_with_gemini` fail with the no-JSON-found error carrying the
raw reply text, and no profile value is produced. -/
theorem no_open_brace_reports_no_json_found (s : String)
    (h : openBrace ∉ s.toList) :
    analyze_resume_with_gemini s = AnalysisResult.noJsonFound s := by
  have hnone : braceSearchAux s.toList = none := by
    rw [braceSearchAux_eq_specBraceSpan]
    unfold specBraceSpan
    rw [firstIdx_eq_none_of_not_mem openBrace s.toList h]
  unfold analyze_resume_with_gemini
  rw [hnone]

/-- C6 witness: the theorem applied to a brace-free reply. -/
theorem no_open_brace_witness :
    analyze_resume_with_gemini "no json here" =
      AnalysisResult.noJsonFound "no json here" :=
  no_open_brace_reports_no_json_found "no json here" (by decide)

/-! ### Claim C7 -/

/-- C7 counterexample: the body `["hits"]` is valid JSON with no `hits` key
(an array has no keys at all), yet Python's `'hits' in ["hits"]` is true —
list membership, not a key check — so `search_jobs` returns the parsed array
as a success instead of the unexpected-format failure. -/
theorem array_body_passes_hits_check :
    search_jobs 200 "[\"hits\"]" =
        SearchOutcome.ok (JVal.jarr [JVal.jstr "hits"]) ∧
      JVal.hasKey (JVal.jarr [JVal.jstr "hits"]) "hits" = false ∧
      search_jobs 200 "[\"hits\"]" ≠
        SearchOutcome.unexpectedFormat "[\"hits\"]" := by
  have h1 : search_jobs 200 "[\"hits\"]" =
      SearchOutcome.ok (JVal.jarr [JVal.jstr "hits"]) := rfl
  refine ⟨h1, rfl, fun h => ?_⟩
  rw [h1] at h
  exact SearchOutcome.noConfusion h

/-- C7 amended: a completed search response with a 2xx status whose body
parses as JSON on which Python's membership test `'hits' in jobs_data` fails
— an object without the `hits` key, an array with no element equal to the
string `"hits"`, or a string not containing `"hits"` — yields the
unexpected-format failure carrying the raw body, not a crash and not a result
sequence. -/
theorem hits_not_in_body_is_unexpected_format (status : Nat) (body : String)
    (v : JVal) (hstatus : status < 400) (hparse : jsonLoads body = some v)
    (hkey : pyIn "hits" v = false) :
    search_jobs status body = SearchOutcome.unexpectedFormat body := by
  unfold search_jobs
  rw [if_neg (Nat.not_le.mpr hstatus), hparse]
  simp [hkey]

/-- C7 witness: the amended theorem applied to status 200 and the body
`\x7b"results": []\x7d`, which parses as an object without the `hits` key. -/
theorem hits_not_in_body_witness :
    search_jobs 200 "\x7b\"results\": []\x7d" =
      SearchOutcome.unexpectedFormat "\x7b\"results\": []\x7d" :=
  hits_not_in_body_is_unexpected_format 200 "\x7b\"results\": []\x7d"
    (JVal.jobj [("results", JVal.jarr [])]) (by decide) rfl rfl

/-! ### Claim C8 -/

/-- C8: a hit lacking the `websiteName` field renders its company as `"N/A"`,
and one lacking `locationName` renders its location as `"N/A"`. -/
theorem missing_company_location_render_na (j : JobHit) :
    (j.websiteName = none → job_company j = "N/A") ∧
      (j.locationName = none → job_location j = "N/A") := by
  constructor
  · intro h
    unfold job_company
    rw [h]
    rfl
  · intro h
    unfold job_location
    rw [h]
    rfl

/-- C8 witness: the theorem applied to a hit with only `title` and
`description` present. -/
theorem missing_company_location_witness :
    job_company ⟨"Backend Dev", "desc", none, none, none, none⟩ = "N/A" ∧
      job_location ⟨"Backend Dev", "desc", none, none, none, none⟩ = "N/A" :=
  ⟨(missing_company_location_render_na
      ⟨"Backend Dev", "desc", none, none, none, none⟩).1 rfl,
    (missing_company_location_render_na
      ⟨"Backend Dev", "desc", none, none, none, none⟩).2 rfl⟩

/-! ### Claim C9 -/

/-- C9 counterexample: when the PDF read raises, `extract_text_from_pdf`
returns through the exception handler without unlinking, and the temporary
file it created is still present in the final file-system state — the scratch
storage is not cleaned up on the failure path. -/
theorem failed_extraction_leaks_temp_file :
    extract_text_from_pdf (Except.error "bad pdf") "tmpA" [] =
      (none, ["tmpA"]) ∧
      "tmpA" ∈ (extract_text_from_pdf (Except.error "bad pdf") "tmpA" []).2 :=
  ⟨rfl, by decide⟩

/-- C9 amended: the temporary file is removed before returning on the success
path, restoring the caller-visible file-system state; on a failed PDF read the
exception handler returns without unlinking and the temporary file is left
behind. -/
theorem temp_file_removed_on_success_only :
    (∀ (text tmpPath : String) (fs : List String),
        extract_text_from_pdf (Except.ok text) tmpPath fs = (some text, fs)) ∧
      ∀ (e tmpPath : String) (fs : List String),
        extract_text_from_pdf (Except.error e) tmpPath fs =
          (none, tmpPath :: fs) := by
  constructor
  · intro text tmpPath fs
    simp [extract_text_from_pdf, List.erase_cons_head]
  · intro e tmpPath fs
    rfl

/-! ### Claim C10 -/

/-- C10: with an empty skills list and a non-empty job-titles list, the query
string starts with a leading comma: it is `","` followed by the comma-join of
the titles. -/
theorem empty_skills_query_has_leading_comma (ts : List String)
    (h : ts ≠ []) :
    build_search_query (some []) (some ts) = "," ++ commaJoin ts := by
  unfold build_search_query
  have hempty : ts.isEmpty = false := by
    cases ts with
    | nil => exact absurd rfl h
    | cons a l => rfl
  simp only [Option.getD_some, hempty, Bool.false_eq_true, if_false]
  rfl

/-- C10 witness: the theorem applied to `job_titles=["engineer"]`, producing
`",engineer"`. -/
theorem empty_skills_leading_comma_witness :
    build_search_query (some []) (some ["engineer"]) = ",engineer" :=
  (empty_skills_query_has_leading_comma ["engineer"] (by decide)).trans
    (by decide)
